import Mathlib

/-!
# Verification of the `commonlib` JSON-result decoder

A shallow embedding of the decoder in `result.go` (package `commonlib`):
the `Result` map type with its path resolver (`Get`, `GetField`, `get`,
`getValueField`), the struct decoder (`Decode`, `DecodeField`, `decode`,
`decodeField`) and the name-derivation function `camelCaseToUnderScore`.

Modelling conventions:
* Go strings are modelled as `List Char` (`Str`).  The source treats
  strings as UTF-8 rune sequences; all inputs relevant here are valid
  ASCII identifiers and keys, so the `utf8.RuneError` branches of the
  source (reachable only on invalid UTF-8 bytes) are not modelled, and
  `unicode.IsUpper` / `unicode.ToLower` are modelled by their ASCII
  restrictions (`Char.isUpper` / `Char.toLower`).
* A parsed JSON value (`interface{}` produced by `encoding/json` with
  `UseNumber`, or hand-built) is `GoVal`.  `GoVal.num` is a
  `json.Number` numeric lexeme (reflect kind `String`, but of the
  distinguished type `typeOfJSONNumber`); `GoVal.str` is an ordinary
  string.  `GoVal.int` / `GoVal.uint` model values whose reflect kind
  is one of the `Int*` / `Uint*` kinds (the source reads them with
  `val.Int()` / `val.Uint()`).  Float-kind sources, `interface{}`
  targets, map targets, fixed-size array targets and the
  `json.Unmarshaler` hook are outside the modelled fragment: no claim
  examined here concerns them.
* `reflect.ValueOf(x)` for a `nil` interface yields the zero
  (invalid) `reflect.Value`; this is modelled by `Option GoVal` with
  `none` standing for the invalid value (`reflectOf` below).
* The destination of a decode is modelled as a typed value `TValue`
  threaded through the decoder (the source writes through settable
  `reflect.Value`s; every destination reached from the modelled entry
  points is settable, so the `CanSet` failure branches never fire).
* Each distinct `fmt.Errorf` format string of the source is one
  constructor of `GoErr`, carrying exactly the varying parts.
-/

abbrev Str := List Char

/-- Decimal digit test, as used by `strconv` for base-10 parsing. -/
def isDig (c : Char) : Bool := '0' ≤ c && c ≤ '9'

/-- Value of a base-10 digit string (no sign). -/
def digitsToNat (ds : Str) : Nat :=
  ds.foldl (fun acc c => acc * 10 + (c.toNat - '0'.toNat)) 0

/-- `strconv.ParseUint(s, 10, bitSize)`: no sign, at least one digit,
value within `[0, 2^bitSize - 1]`; any failure (syntax or range) makes
the Go call return a non-nil error, modelled as `none`. -/
def goParseUint (s : Str) (bitSize : Nat) : Option Nat :=
  if s ≠ [] ∧ s.all isDig ∧ digitsToNat s < 2 ^ bitSize then
    some (digitsToNat s)
  else none

/-- `strconv.ParseInt(s, 10, bitSize)`: optional `+`/`-` sign, at least
one digit, value within `[-2^(bitSize-1), 2^(bitSize-1) - 1]`; any
failure (syntax or range) is `none`. -/
def goParseInt (s : Str) (bitSize : Nat) : Option Int :=
  match s with
  | [] => none
  | c :: rest =>
    let (neg, digits) :=
      if c = '-' then (true, rest)
      else if c = '+' then (false, rest)
      else (false, c :: rest)
    if digits ≠ [] ∧ digits.all isDig then
      let v : Int := if neg then -(digitsToNat digits : Int) else (digitsToNat digits : Int)
      if -(2 ^ (bitSize - 1) : Int) ≤ v ∧ v ≤ (2 ^ (bitSize - 1) : Int) - 1 then some v
      else none
    else none

/-- Decimal rendering of a natural number, as `fmt` renders an `int`
index or bit count (`%v`). -/
def natStr (n : Nat) : Str := Nat.toDigits 10 n

/-- A parsed JSON value held in an `interface{}` (see the header notes). -/
inductive GoVal where
  /-- JSON `null` / a nil interface entry. -/
  | null
  | bool (b : Bool)
  /-- A value of reflect kind `Int`..`Int64` (read via `val.Int()`). -/
  | int (n : Int)
  /-- A value of reflect kind `Uint`..`Uint64` (read via `val.Uint()`). -/
  | uint (n : Nat)
  /-- An ordinary Go string (reflect kind `String`, not `json.Number`). -/
  | str (s : Str)
  /-- A `json.Number` numeric lexeme (reflect kind `String`, type `typeOfJSONNumber`). -/
  | num (s : Str)
  | arr (elems : List GoVal)
  | obj (members : List (Str × GoVal))

/-- The `Result` map (`map[string]interface{}`).  Keys are unique. -/
abbrev Result := List (Str × GoVal)

/-- Go map lookup `m[k]`. -/
def lookupKV (m : List (Str × GoVal)) (k : Str) : Option GoVal :=
  match m with
  | [] => none
  | (k', v) :: rest => if k' = k then some v else lookupKV rest k

/-- `reflect.ValueOf` on an interface value: a nil interface gives the
zero (invalid) `reflect.Value`, modelled by `none`. -/
def reflectOf (v : GoVal) : Option GoVal :=
  match v with
  | .null => none
  | v => some v

/-- Outcome of a path lookup.  `absent` is Go's `nil` result (the
absent sentinel, also produced from an invalid `reflect.Value`);
`panicked` marks a run that panics (`reflect.Value.Type` called on the
zero `reflect.Value`, or indexing `fields[0]` of an empty slice). -/
inductive LookupRes where
  | panicked
  | absent
  | val (v : GoVal)

/-- `getValueField(value, fields)` of the source.  `value` is the
current `reflect.Value` (`none` = the zero/invalid value).  The first
statement of the source body, `value.Type()`, panics on the zero value;
the recursive call can reach it when a nested entry is JSON `null`. -/
def getValueField (value : Option GoVal) (fields : List Str) : LookupRes :=
  match value with
  | none => .panicked
  | some v =>
    match fields with
    | [] => .panicked
    | field :: rest =>
      match v with
      | .arr xs =>
        -- field must be a number: strconv.ParseUint(field, 10, 0) (bitSize 0 = 64-bit word)
        match goParseUint field 64 with
        | none => .absent
        | some n =>
          if h : n < xs.length then
            let elem := reflectOf (xs.get ⟨n, h⟩)
            if rest = [] then
              match elem with
              | none => .absent
              | some e => .val e
            else getValueField elem rest
          else .absent
      | .obj kvs =>
        match lookupKV kvs field with
        | none => .absent           -- MapIndex invalid: returned as the final result
        | some w =>
          let elem := reflectOf w   -- reflect.ValueOf(v.Interface())
          if rest = [] then
            match elem with
            | none => .absent
            | some e => .val e
          else getValueField elem rest
      | _ => .absent                -- default: non-container kind
termination_by structural fields

/-- `(res Result) get(fields)` of the source: first segment looked up
directly in the map (`nil`-valued or missing key gives `nil`), further
segments via `getValueField`; an invalid final value is reported as
`nil`. -/
def Result.get (res : Result) (fields : List Str) : LookupRes :=
  match fields with
  | [] => .panicked                 -- fields[0]: unreachable from Get / GetField
  | f :: rest =>
    match lookupKV res f with
    | none => .absent
    | some .null => .absent
    | some v =>
      if rest = [] then .val v
      else getValueField (some v) rest

/-- `strings.Split(s, ".")`: split at every dot; the empty string
yields one empty segment. -/
def splitDot : Str → List Str
  | [] => [[]]
  | c :: rest =>
    if c = '.' then [] :: splitDot rest
    else
      match splitDot rest with
      | seg :: segs => (c :: seg) :: segs
      | [] => [[c]]

/-- `strings.Join(segs, ".")` — used to state the dotted-path law. -/
def joinDot : List Str → Str
  | [] => []
  | [s] => s
  | s :: rest => s ++ '.' :: joinDot rest

/-- `Result.Get`: empty field returns the result itself, otherwise the
field is split on dots and resolved by `get`. -/
def Result.Get (res : Result) (field : Str) : LookupRes :=
  if field = [] then .val (.obj res)
  else Result.get res (splitDot field)

/-- `Result.GetField`: no arguments returns the result itself,
otherwise the arguments are resolved by `get`. -/
def Result.GetField (res : Result) (fields : List Str) : LookupRes :=
  if fields = [] then .val (.obj res)
  else Result.get res fields

/-- Control state of `camelCaseToUnderScore`'s loops: `outer prev` is
the top of the outer `for` loop with `prev` holding the previous
iteration's final `r0`; `acr r0` is the top of the inner
acronym-scanning `for` loop with `r0` holding the not-yet-written
uppercase rune read just before entering it. -/
inductive CamelSt where
  | outer (prev : Char)
  | acr (r0 : Char)

/-- The body of `camelCaseToUnderScore`, one function covering both of
its loops (state in `CamelSt`, recursion structural on the remaining
input).  Faithful to the source line by line; the `utf8.RuneError`
branches are unreachable for the valid strings modelled here. -/
def camelGo : CamelSt → List Char → List Char
  | .outer _, [] => []
  | .outer prev, r0 :: str =>
    if r0.isUpper then
      let head := (if prev ≠ '_' then ['_'] else []) ++ [r0.toLower]
      match str with
      | [] => head                                  -- if len(str) == 0 { break }
      | r0' :: str' =>
        if r0'.isUpper then head ++ camelGo (.acr r0') str'
        else head ++ r0' :: camelGo (.outer r0') str'   -- write raw rune, next iteration
    else
      let r0' := if r0 = ' ' ∨ r0 = '-' then '_' else r0
      r0' :: camelGo (.outer r0') str
  | .acr r0, [] =>
    -- inner loop does not run; post-loop: len(str) == 0, write ToLower(r0), break
    [r0.toLower]
  | .acr r0, c :: str =>
    -- r1 := r0; read c as the new r0
    if c.isUpper then r0.toLower :: camelGo (.acr c) str
    else if c = '_' ∨ c = ' ' ∨ c = '-' then
      -- r0 := '_', write ToLower(r1); post-loop: r0 == '_', write it, next outer iteration
      r0.toLower :: '_' :: camelGo (.outer '_') str
    else
      -- write '_', ToLower(r1), r0; post-loop: if input is exhausted the
      -- just-read rune is written a second time (len(str) == 0 branch)
      '_' :: r0.toLower :: c ::
        (match str with
         | [] => [c.toLower]
         | _ :: _ => camelGo (.outer c) str)

/-- `camelCaseToUnderScore`: the outer loop starts with `r0 = '_'`. -/
def camelCaseToUnderScore (s : Str) : Str := camelGo (.outer '_') s

example : camelCaseToUnderScore "FooBar".toList = "foo_bar".toList := rfl
example : camelCaseToUnderScore "HTTPServer".toList = "http_server".toList := rfl
example : camelCaseToUnderScore "TestHTTPCase".toList = "test_http_case".toList := rfl
example : camelCaseToUnderScore "UserId".toList = "user_id".toList := rfl
example : camelCaseToUnderScore "HELLO".toList = "hello".toList := rfl
example : camelCaseToUnderScore "ABc".toList = "a_bcc".toList := rfl
example : camelCaseToUnderScore "A b".toList = "a b".toList := rfl
example : camelCaseToUnderScore "AB-c".toList = "ab_c".toList := rfl

/-- The target shapes handled by `decodeField`'s switch that the claims
exercise.  A struct member is `(Go field name, facebook tag, type)`.
Float, `interface{}`, map and fixed-size-array targets and the
`json.Unmarshaler` hook are outside the modelled fragment (no claim
concerns them). -/
inductive GoType where
  | tbool
  | ti8
  | ti16
  | ti32
  | ti64
  /-- Platform-width `int`; `bits` is `field.Type().Bits()` (32 or 64). -/
  | tint (bits : Nat)
  | tu8
  | tu16
  | tu32
  | tu64
  /-- Platform-width `uint`; `bits` is `field.Type().Bits()` (32 or 64). -/
  | tuint (bits : Nat)
  | tstring
  | tstrukt (fields : List (Str × Str × GoType))
  | tslice (elem : GoType)
  | tptr (elem : GoType)

/-- Typed Go storage written by the decoder (one constructor per
modelled target shape; all signed widths store through `SetInt`, all
unsigned through `SetUint`). -/
inductive TValue where
  | vbool (b : Bool)
  | vint (n : Int)
  | vuint (n : Nat)
  | vstr (s : Str)
  | vstruct (members : List TValue)
  | vslice (elems : List TValue)
  | vptr (p : Option TValue)

mutual
/-- The zero value of a type (`reflect.New(t).Elem()`). -/
def zeroVal : GoType → TValue
  | .tbool => .vbool false
  | .ti8 | .ti16 | .ti32 | .ti64 | .tint _ => .vint 0
  | .tu8 | .tu16 | .tu32 | .tu64 | .tuint _ => .vuint 0
  | .tstring => .vstr []
  | .tstrukt fields => .vstruct (zeroFields fields)
  | .tslice _ => .vslice []
  | .tptr _ => .vptr none

/-- Zero values of a struct's members. -/
def zeroFields : List (Str × Str × GoType) → List TValue
  | [] => []
  | (_, _, t) :: fs => zeroVal t :: zeroFields fs
end

/-- One `GoErr` constructor per distinct `fmt.Errorf` format string in
the modelled branches of the source, carrying its varying parts. -/
inductive GoErr where
  /-- "cannot find field '%v%v' in result." -/
  | missingField (path : Str)
  /-- "field '%v' is not a bool in result." -/
  | notBool (path : Str)
  /-- "field '%v' value exceeds the range of ‹ty›." with ‹ty› the
  literal width name in the format ("int8" … "int64", "int", "uint8" …
  "uint64", "uint"). -/
  | rangeExceeded (path : Str) (ty : Str)
  /-- "field '%v' value is string, not a number." -/
  | stringNotNumber (path : Str)
  /-- "field '%v' value is not a valid ‹ty›." -/
  | invalidNumeric (path : Str) (ty : Str)
  /-- "field '%v' is not an integer in result." -/
  | notInteger (path : Str)
  /-- "field '%v' is not a string in result." -/
  | notString (path : Str)
  /-- "field '%v' is not a json object in result." -/
  | notObject (path : Str)
  /-- "field '%v' is not a json array in result." -/
  | notArray (path : Str)
  /-- "field '%v' is not a pointer. cannot assign nil to it." -/
  | cantAssignNil (path : Str)
  /-- "field '%v' doesn't exist in result." (from `Result.DecodeField`) -/
  | fieldNotExist (field : Str)
deriving DecidableEq

/-- First comma split: `some (before, from-comma-inclusive)`. -/
def splitComma : Str → Option (Str × Str)
  | [] => none
  | c :: rest =>
    if c = ',' then some ([], c :: rest)
    else (splitComma rest).map (fun p => (c :: p.1, p.2))

/-- The struct-tag parse of `decode` (lines 211–223): an empty tag
gives no name; otherwise the part before the first comma is the name
and the member is required exactly when the tag from the comma on is
the literal `,required`. -/
def parseTag (fbTag : Str) : Str × Bool :=
  if fbTag = [] then ([], false)
  else
    match splitComma fbTag with
    | none => (fbTag, false)
    | some (before, fromComma) => (before, fromComma = ",required".toList)

/-- The member's source key: the tag name when nonempty, otherwise the
camel-case derivation of the Go field name. -/
def resolvedName (goName fbTag : Str) : Str :=
  let n := (parseTag fbTag).1
  if n = [] then camelCaseToUnderScore goName else n

/-- Whether the member's tag carries the required marker. -/
def fieldRequired (fbTag : Str) : Bool := (parseTag fbTag).2

mutual
/-- `decodeField(val, field, fullName)` of the source.  `val = none`
is the invalid `reflect.Value` obtained from a nil interface (a JSON
`null`).  A pointer-typed destination is reset to nil on invalid
input, lazily allocated otherwise, and decoding continues into the
pointee; every destination reached here is settable. -/
def decodeField (val : Option GoVal) (t : GoType) (cur : TValue) (fullName : Str) :
    Except GoErr TValue :=
  match t with
  | .tptr e =>
    match val with
    | none => .ok (.vptr none)        -- reset Ptr field if val is nil
    | some v =>
      -- if field.IsNil() { field.Set(reflect.New(elem)) }; field = field.Elem()
      match cur with
      | .vptr (some x) => (decodeBody v e x fullName).map (fun r => .vptr (some r))
      | _ => (decodeBody v e (zeroVal e) fullName).map (fun r => .vptr (some r))
  | .tbool =>
    match val with
    | none => .error (.cantAssignNil fullName)
    | some v => decodeBody v .tbool cur fullName
  | .ti8 =>
    match val with
    | none => .error (.cantAssignNil fullName)
    | some v => decodeBody v .ti8 cur fullName
  | .ti16 =>
    match val with
    | none => .error (.cantAssignNil fullName)
    | some v => decodeBody v .ti16 cur fullName
  | .ti32 =>
    match val with
    | none => .error (.cantAssignNil fullName)
    | some v => decodeBody v .ti32 cur fullName
  | .ti64 =>
    match val with
    | none => .error (.cantAssignNil fullName)
    | some v => decodeBody v .ti64 cur fullName
  | .tint bits =>
    match val with
    | none => .error (.cantAssignNil fullName)
    | some v => decodeBody v (.tint bits) cur fullName
  | .tu8 =>
    match val with
    | none => .error (.cantAssignNil fullName)
    | some v => decodeBody v .tu8 cur fullName
  | .tu16 =>
    match val with
    | none => .error (.cantAssignNil fullName)
    | some v => decodeBody v .tu16 cur fullName
  | .tu32 =>
    match val with
    | none => .error (.cantAssignNil fullName)
    | some v => decodeBody v .tu32 cur fullName
  | .tu64 =>
    match val with
    | none => .error (.cantAssignNil fullName)
    | some v => decodeBody v .tu64 cur fullName
  | .tuint bits =>
    match val with
    | none => .error (.cantAssignNil fullName)
    | some v => decodeBody v (.tuint bits) cur fullName
  | .tstring =>
    match val with
    | none => .error (.cantAssignNil fullName)
    | some v => decodeBody v .tstring cur fullName
  | .tstrukt fields =>
    match val with
    | none => .error (.cantAssignNil fullName)
    | some v => decodeBody v (.tstrukt fields) cur fullName
  | .tslice e =>
    match val with
    | none => .error (.cantAssignNil fullName)
    | some v => decodeBody v (.tslice e) cur fullName
termination_by (sizeOf t, 1, 0)
decreasing_by all_goals (simp_wf; simp_all [Prod.lex_iff] <;> omega)

/-- The switch of `decodeField` over the destination kind, after the
pointer indirection and validity checks. -/
def decodeBody (v : GoVal) (t : GoType) (cur : TValue) (fullName : Str) :
    Except GoErr TValue :=
  match t with
  | .tptr _ =>
    -- a second pointer level is not a case of the switch: it falls to
    -- the default arm ("unsupported type"); no claim exercises it and
    -- no modelled type nests two pointers, so it is left out of `GoErr`
    .error (.cantAssignNil fullName)
  | .tbool =>
    match v with
    | .bool b => .ok (.vbool b)
    | _ => .error (.notBool fullName)
  | .ti8 =>
    match v with
    | .int n =>
      if n < -128 ∨ n > 127 then .error (.rangeExceeded fullName "int8".toList)
      else .ok (.vint n)
    | .uint n =>
      if n > 127 then .error (.rangeExceeded fullName "int8".toList)
      else .ok (.vint (n : Int))
    | .num s =>
      match goParseInt s 8 with
      | none => .error (.invalidNumeric fullName "int8".toList)
      | some n => .ok (.vint n)
    | .str _ => .error (.stringNotNumber fullName)
    | _ => .error (.notInteger fullName)
  | .ti16 =>
    match v with
    | .int n =>
      if n < -32768 ∨ n > 32767 then .error (.rangeExceeded fullName "int16".toList)
      else .ok (.vint n)
    | .uint n =>
      if n > 32767 then .error (.rangeExceeded fullName "int16".toList)
      else .ok (.vint (n : Int))
    | .num s =>
      match goParseInt s 16 with
      | none => .error (.invalidNumeric fullName "int16".toList)
      | some n => .ok (.vint n)
    | .str _ => .error (.stringNotNumber fullName)
    | _ => .error (.notInteger fullName)
  | .ti32 =>
    match v with
    | .int n =>
      if n < -2147483648 ∨ n > 2147483647 then .error (.rangeExceeded fullName "int32".toList)
      else .ok (.vint n)
    | .uint n =>
      if n > 2147483647 then .error (.rangeExceeded fullName "int32".toList)
      else .ok (.vint (n : Int))
    | .num s =>
      match goParseInt s 32 with
      | none => .error (.invalidNumeric fullName "int32".toList)
      | some n => .ok (.vint n)
    | .str _ => .error (.stringNotNumber fullName)
    | _ => .error (.notInteger fullName)
  | .ti64 =>
    match v with
    | .int n => .ok (.vint n)        -- the source has no range test here
    | .uint n =>
      if n > 9223372036854775807 then .error (.rangeExceeded fullName "int64".toList)
      else .ok (.vint (n : Int))
    | .num s =>
      match goParseInt s 64 with
      | none => .error (.invalidNumeric fullName "int64".toList)
      | some n => .ok (.vint n)
    | .str _ => .error (.stringNotNumber fullName)
    | _ => .error (.notInteger fullName)
  | .tint bits =>
    -- min and max stay 0 unless bits is 32 or 64, as in the source
    let min : Int := if bits = 32 then -2147483648
      else if bits = 64 then -9223372036854775808 else 0
    let max : Int := if bits = 32 then 2147483647
      else if bits = 64 then 9223372036854775807 else 0
    match v with
    | .int n =>
      if n < min ∨ n > max then .error (.rangeExceeded fullName "int".toList)
      else .ok (.vint n)
    | .uint n =>
      if (n : Int) > max then .error (.rangeExceeded fullName "int".toList)
      else .ok (.vint (n : Int))
    | .num s =>
      match goParseInt s bits with
      | none => .error (.invalidNumeric fullName ("int".toList ++ natStr bits))
      | some n => .ok (.vint n)
    | .str _ => .error (.stringNotNumber fullName)
    | _ => .error (.notInteger fullName)
  | .tu8 =>
    match v with
    | .int n =>
      if n < 0 ∨ n > 0xFF then .error (.rangeExceeded fullName "uint8".toList)
      else .ok (.vuint n.toNat)
    | .uint n =>
      if n > 0xFF then .error (.rangeExceeded fullName "uint8".toList)
      else .ok (.vuint n)
    | .num s =>
      match goParseUint s 8 with
      | none => .error (.invalidNumeric fullName "uint8".toList)
      | some n => .ok (.vuint n)
    | .str _ => .error (.stringNotNumber fullName)
    | _ => .error (.notInteger fullName)
  | .tu16 =>
    match v with
    | .int n =>
      if n < 0 ∨ n > 0xFFFF then .error (.rangeExceeded fullName "uint16".toList)
      else .ok (.vuint n.toNat)
    | .uint n =>
      if n > 0xFFFF then .error (.rangeExceeded fullName "uint16".toList)
      else .ok (.vuint n)
    | .num s =>
      match goParseUint s 16 with
      | none => .error (.invalidNumeric fullName "uint16".toList)
      | some n => .ok (.vuint n)
    | .str _ => .error (.stringNotNumber fullName)
    | _ => .error (.notInteger fullName)
  | .tu32 =>
    match v with
    | .int n =>
      if n < 0 ∨ n > 0xFFFFFFFF then .error (.rangeExceeded fullName "uint32".toList)
      else .ok (.vuint n.toNat)
    | .uint n =>
      if n > 0xFFFFFFFF then .error (.rangeExceeded fullName "uint32".toList)
      else .ok (.vuint n)
    | .num s =>
      match goParseUint s 32 with
      | none => .error (.invalidNumeric fullName "uint32".toList)
      | some n => .ok (.vuint n)
    | .str _ => .error (.stringNotNumber fullName)
    | _ => .error (.notInteger fullName)
  | .tu64 =>
    match v with
    | .int n =>
      if n < 0 then .error (.rangeExceeded fullName "uint64".toList)
      else .ok (.vuint n.toNat)
    | .uint n => .ok (.vuint n)      -- the source has no range test here
    | .num s =>
      match goParseUint s 64 with
      | none => .error (.invalidNumeric fullName "uint64".toList)
      | some n => .ok (.vuint n)
    | .str _ => .error (.stringNotNumber fullName)
    | _ => .error (.notInteger fullName)
  | .tuint bits =>
    -- max stays 0 unless bits is 32 or 64, as in the source
    let max : Nat := if bits = 32 then 0xFFFFFFFF
      else if bits = 64 then 0xFFFFFFFFFFFFFFFF else 0
    match v with
    | .int n =>
      if n < 0 ∨ n.toNat > max then .error (.rangeExceeded fullName "uint".toList)
      else .ok (.vuint n.toNat)
    | .uint n =>
      if n > max then .error (.rangeExceeded fullName "uint".toList)
      else .ok (.vuint n)
    | .num s =>
      match goParseUint s bits with
      | none => .error (.invalidNumeric fullName ("uint".toList ++ natStr bits))
      | some n => .ok (.vuint n)
    | .str _ => .error (.stringNotNumber fullName)
    | _ => .error (.notInteger fullName)
  | .tstring =>
    -- `json.Number` also has reflect kind String, so a numeric lexeme
    -- decodes into a string field via `val.String()`
    match v with
    | .str s => .ok (.vstr s)
    | .num s => .ok (.vstr s)
    | _ => .error (.notString fullName)
  | .tstrukt fields =>
    match v with
    | .obj kvs =>
      -- r.decode(field, fullName): a nonempty fullName gains a "." suffix
      let pre := if fullName = [] then ([] : Str) else fullName ++ ['.']
      match cur with
      | .vstruct vals => (decodeFields kvs fields vals pre).map .vstruct
      | _ => (decodeFields kvs fields (zeroFields fields) pre).map .vstruct
    | _ => .error (.notObject fullName)
  | .tslice e =>
    match v with
    | .arr xs =>
      match _h : e with
      | .tptr e' => (decodeElems xs e' true fullName 0).map .vslice
      | _ => (decodeElems xs e false fullName 0).map .vslice
    | _ => .error (.notArray fullName)
termination_by (sizeOf t, 0, 0)
decreasing_by all_goals (simp_wf; simp_all [Prod.lex_iff] <;> omega)

/-- The member loop of `decode` (lines 204–243): resolve each member's
source key, skip optional absent members, fail on required absent
members, otherwise decode in place.  `curs` holds the members' current
storage, one entry per member. -/
def decodeFields (res : Result) (fields : List (Str × Str × GoType)) (curs : List TValue)
    (pre : Str) : Except GoErr (List TValue) :=
  match fields, curs with
  | [], _ => .ok []
  | _ :: _, [] => .ok []             -- unreachable: one stored value per member
  | (goName, fbTag, fty) :: fs, cur :: cs =>
    let name := resolvedName goName fbTag
    match lookupKV res name with
    | none =>
      if fieldRequired fbTag then .error (.missingField (pre ++ name))
      else (decodeFields res fs cs pre).map (cur :: ·)   -- continue: storage unchanged
    | some val =>
      match decodeField (reflectOf val) fty cur (pre ++ name) with
      | .error e => .error e
      | .ok v' => (decodeFields res fs cs pre).map (v' :: ·)
termination_by (sizeOf fields, 0, 0)
decreasing_by all_goals (simp_wf; simp_all [Prod.lex_iff] <;> omega)

/-- The element loop of `decodeField`'s slice case: each element is
decoded into a freshly allocated `reflect.New(inner)`; with a
pointer-typed element (`needAddr`) the allocation's address is stored,
otherwise its contents.  The fresh allocation's pointer is not
settable, so a nil element leaves it allocated and zero. -/
def decodeElems (xs : List GoVal) (inner : GoType) (needAddr : Bool) (fullName : Str)
    (i : Nat) : Except GoErr (List TValue) :=
  match xs with
  | [] => .ok []
  | x :: rest =>
    let path := fullName ++ '.' :: natStr i
    let one : Except GoErr TValue :=
      match reflectOf x with
      | none => .ok (zeroVal inner)
      | some xv => decodeBody xv inner (zeroVal inner) path
    match one with
    | .error e => .error e
    | .ok r =>
      match decodeElems rest inner needAddr fullName (i + 1) with
      | .error e => .error e
      | .ok rs => .ok ((if needAddr then .vptr (some r) else r) :: rs)
termination_by (sizeOf inner, 2, xs.length)
decreasing_by all_goals (simp_wf; simp_all [Prod.lex_iff] <;> omega)
end

/-- `Result.Decode` into a struct: the pointer indirection, struct and
settability checks of `decode` are satisfied at this modelled entry
point, leaving the member loop with an empty path prefix. -/
def Result.Decode (res : Result) (fields : List (Str × Str × GoType))
    (curs : List TValue) : Except GoErr (List TValue) :=
  decodeFields res fields curs []

/-- Outcome of `Result.DecodeField` (which can panic through `Get`). -/
inductive DFRes where
  | panicked
  | err (e : GoErr)
  | ok (v : TValue)

/-- `Result.DecodeField`: resolve the field by `Get`; a nil result is
the "field doesn't exist" error; otherwise decode into the caller's
pointer (`reflect.ValueOf(v)` is the pointer value, so `decodeField`
runs with a pointer destination holding the caller's storage). -/
def Result.DecodeField (res : Result) (field : Str) (t : GoType) (cur : TValue) : DFRes :=
  match Result.Get res field with
  | .panicked => .panicked
  | .absent => .err (.fieldNotExist field)
  | .val f =>
    match decodeField (some f) (.tptr t) (.vptr (some cur)) field with
    | .error e => .err e
    | .ok v => .ok v

-- quick sanity checks of the scaffolding
example : lookupKV [("a".toList, .int 1)] "a".toList = some (.int 1) := rfl
example :
    Result.Get [("a".toList, .obj [("b".toList, .arr [.int 1, .int 2, .obj [("c".toList, .str "v".toList)]])])]
      "a.b.2.c".toList = .val (.str "v".toList) := rfl
example :
    Result.Get [("a".toList, .obj [("b".toList, .arr [.int 1])])] "a.b.5".toList = .absent := rfl
example :
    Result.Get [("a".toList, .obj [("b".toList, .null)])] "a.b.c".toList = .panicked := rfl
example : goParseInt "-128".toList 8 = some (-128) := by decide
example : goParseInt "128".toList 8 = none := by decide
example : goParseUint "18446744073709551615".toList 64 = some 18446744073709551615 := by decide
example : natStr 12 = "12".toList := by decide

/-! ## Claim C1: integer boundary behaviour -/

/-- C1, counterexample.  The claim says a source number one beyond a
width's bound fails with the RangeExceeded error ("value exceeds the
range"), never reported as a parse error.  But a numeric lexeme (the
`Number` representation of the data model) one beyond the `int8` bound
is reported through `strconv.ParseInt`'s failure as "value is not a
valid int8." — the invalid-numeric-lexeme error, not RangeExceeded. -/
theorem boundary_lexeme_beyond_int8_is_parse_error :
    decodeField (some (.num "128".toList)) .ti8 (.vint 0) "f".toList =
      .error (.invalidNumeric "f".toList "int8".toList) ∧
    decodeField (some (.num "128".toList)) .ti8 (.vint 0) "f".toList ≠
      .error (.rangeExceeded "f".toList "int8".toList) := by
  constructor
  · simp [decodeField, decodeBody, goParseInt, digitsToNat, isDig]
  · simp [decodeField, decodeBody, goParseInt, digitsToNat, isDig]

/-- C1, amended.  For every integer target width (signed and unsigned
8/16/32/64 and the platform-width `int`/`uint` at 32 and 64 bits),
decoding the numeric lexeme of the exact minimum or maximum
representable value succeeds and stores that value, and decoding a
value one unit beyond either bound fails — never silently clamped or
wrapped.  The error kind depends on the source representation: a
numeric lexeme beyond the bound fails with the invalid-numeric-lexeme
error ("value is not a valid ‹width›", from `strconv`'s range
failure), while an already-typed integer source beyond the bound fails
with the distinct RangeExceeded error ("value exceeds the range"). -/
theorem boundary_all_widths :
    -- int8
    (decodeField (some (.num "-128".toList)) .ti8 (.vint 0) "f".toList = .ok (.vint (-128)) ∧
     decodeField (some (.num "127".toList)) .ti8 (.vint 0) "f".toList = .ok (.vint 127) ∧
     decodeField (some (.num "128".toList)) .ti8 (.vint 0) "f".toList =
       .error (.invalidNumeric "f".toList "int8".toList) ∧
     decodeField (some (.num "-129".toList)) .ti8 (.vint 0) "f".toList =
       .error (.invalidNumeric "f".toList "int8".toList) ∧
     decodeField (some (.int 128)) .ti8 (.vint 0) "f".toList =
       .error (.rangeExceeded "f".toList "int8".toList) ∧
     decodeField (some (.int (-129))) .ti8 (.vint 0) "f".toList =
       .error (.rangeExceeded "f".toList "int8".toList)) ∧
    -- int16
    (decodeField (some (.num "-32768".toList)) .ti16 (.vint 0) "f".toList = .ok (.vint (-32768)) ∧
     decodeField (some (.num "32767".toList)) .ti16 (.vint 0) "f".toList = .ok (.vint 32767) ∧
     decodeField (some (.num "32768".toList)) .ti16 (.vint 0) "f".toList =
       .error (.invalidNumeric "f".toList "int16".toList) ∧
     decodeField (some (.num "-32769".toList)) .ti16 (.vint 0) "f".toList =
       .error (.invalidNumeric "f".toList "int16".toList) ∧
     decodeField (some (.int 32768)) .ti16 (.vint 0) "f".toList =
       .error (.rangeExceeded "f".toList "int16".toList) ∧
     decodeField (some (.int (-32769))) .ti16 (.vint 0) "f".toList =
       .error (.rangeExceeded "f".toList "int16".toList)) ∧
    -- int32
    (decodeField (some (.num "-2147483648".toList)) .ti32 (.vint 0) "f".toList =
       .ok (.vint (-2147483648)) ∧
     decodeField (some (.num "2147483647".toList)) .ti32 (.vint 0) "f".toList =
       .ok (.vint 2147483647) ∧
     decodeField (some (.num "2147483648".toList)) .ti32 (.vint 0) "f".toList =
       .error (.invalidNumeric "f".toList "int32".toList) ∧
     decodeField (some (.num "-2147483649".toList)) .ti32 (.vint 0) "f".toList =
       .error (.invalidNumeric "f".toList "int32".toList) ∧
     decodeField (some (.int 2147483648)) .ti32 (.vint 0) "f".toList =
       .error (.rangeExceeded "f".toList "int32".toList) ∧
     decodeField (some (.int (-2147483649))) .ti32 (.vint 0) "f".toList =
       .error (.rangeExceeded "f".toList "int32".toList)) ∧
    -- int64
    (decodeField (some (.num "-9223372036854775808".toList)) .ti64 (.vint 0) "f".toList =
       .ok (.vint (-9223372036854775808)) ∧
     decodeField (some (.num "9223372036854775807".toList)) .ti64 (.vint 0) "f".toList =
       .ok (.vint 9223372036854775807) ∧
     decodeField (some (.num "9223372036854775808".toList)) .ti64 (.vint 0) "f".toList =
       .error (.invalidNumeric "f".toList "int64".toList) ∧
     decodeField (some (.num "-9223372036854775809".toList)) .ti64 (.vint 0) "f".toList =
       .error (.invalidNumeric "f".toList "int64".toList) ∧
     decodeField (some (.uint 9223372036854775808)) .ti64 (.vint 0) "f".toList =
       .error (.rangeExceeded "f".toList "int64".toList)) ∧
    -- platform int, 64-bit
    (decodeField (some (.num "-9223372036854775808".toList)) (.tint 64) (.vint 0) "f".toList =
       .ok (.vint (-9223372036854775808)) ∧
     decodeField (some (.num "9223372036854775807".toList)) (.tint 64) (.vint 0) "f".toList =
       .ok (.vint 9223372036854775807) ∧
     decodeField (some (.num "9223372036854775808".toList)) (.tint 64) (.vint 0) "f".toList =
       .error (.invalidNumeric "f".toList "int64".toList) ∧
     decodeField (some (.uint 9223372036854775808)) (.tint 64) (.vint 0) "f".toList =
       .error (.rangeExceeded "f".toList "int".toList)) ∧
    -- platform int, 32-bit
    (decodeField (some (.num "-2147483648".toList)) (.tint 32) (.vint 0) "f".toList =
       .ok (.vint (-2147483648)) ∧
     decodeField (some (.num "2147483647".toList)) (.tint 32) (.vint 0) "f".toList =
       .ok (.vint 2147483647) ∧
     decodeField (some (.num "2147483648".toList)) (.tint 32) (.vint 0) "f".toList =
       .error (.invalidNumeric "f".toList "int32".toList) ∧
     decodeField (some (.int 2147483648)) (.tint 32) (.vint 0) "f".toList =
       .error (.rangeExceeded "f".toList "int".toList) ∧
     decodeField (some (.int (-2147483649))) (.tint 32) (.vint 0) "f".toList =
       .error (.rangeExceeded "f".toList "int".toList)) ∧
    -- uint8
    (decodeField (some (.num "0".toList)) .tu8 (.vuint 0) "f".toList = .ok (.vuint 0) ∧
     decodeField (some (.num "255".toList)) .tu8 (.vuint 0) "f".toList = .ok (.vuint 255) ∧
     decodeField (some (.num "256".toList)) .tu8 (.vuint 0) "f".toList =
       .error (.invalidNumeric "f".toList "uint8".toList) ∧
     decodeField (some (.num "-1".toList)) .tu8 (.vuint 0) "f".toList =
       .error (.invalidNumeric "f".toList "uint8".toList) ∧
     decodeField (some (.int 256)) .tu8 (.vuint 0) "f".toList =
       .error (.rangeExceeded "f".toList "uint8".toList) ∧
     decodeField (some (.int (-1))) .tu8 (.vuint 0) "f".toList =
       .error (.rangeExceeded "f".toList "uint8".toList)) ∧
    -- uint16
    (decodeField (some (.num "65535".toList)) .tu16 (.vuint 0) "f".toList = .ok (.vuint 65535) ∧
     decodeField (some (.num "65536".toList)) .tu16 (.vuint 0) "f".toList =
       .error (.invalidNumeric "f".toList "uint16".toList) ∧
     decodeField (some (.num "-1".toList)) .tu16 (.vuint 0) "f".toList =
       .error (.invalidNumeric "f".toList "uint16".toList) ∧
     decodeField (some (.int 65536)) .tu16 (.vuint 0) "f".toList =
       .error (.rangeExceeded "f".toList "uint16".toList) ∧
     decodeField (some (.int (-1))) .tu16 (.vuint 0) "f".toList =
       .error (.rangeExceeded "f".toList "uint16".toList)) ∧
    -- uint32
    (decodeField (some (.num "4294967295".toList)) .tu32 (.vuint 0) "f".toList =
       .ok (.vuint 4294967295) ∧
     decodeField (some (.num "4294967296".toList)) .tu32 (.vuint 0) "f".toList =
       .error (.invalidNumeric "f".toList "uint32".toList) ∧
     decodeField (some (.num "-1".toList)) .tu32 (.vuint 0) "f".toList =
       .error (.invalidNumeric "f".toList "uint32".toList) ∧
     decodeField (some (.int 4294967296)) .tu32 (.vuint 0) "f".toList =
       .error (.rangeExceeded "f".toList "uint32".toList) ∧
     decodeField (some (.int (-1))) .tu32 (.vuint 0) "f".toList =
       .error (.rangeExceeded "f".toList "uint32".toList)) ∧
    -- uint64
    (decodeField (some (.num "18446744073709551615".toList)) .tu64 (.vuint 0) "f".toList =
       .ok (.vuint 18446744073709551615) ∧
     decodeField (some (.num "18446744073709551616".toList)) .tu64 (.vuint 0) "f".toList =
       .error (.invalidNumeric "f".toList "uint64".toList) ∧
     decodeField (some (.num "-1".toList)) .tu64 (.vuint 0) "f".toList =
       .error (.invalidNumeric "f".toList "uint64".toList) ∧
     decodeField (some (.int (-1))) .tu64 (.vuint 0) "f".toList =
       .error (.rangeExceeded "f".toList "uint64".toList)) ∧
    -- platform uint, 32-bit
    (decodeField (some (.num "4294967295".toList)) (.tuint 32) (.vuint 0) "f".toList =
       .ok (.vuint 4294967295) ∧
     decodeField (some (.num "4294967296".toList)) (.tuint 32) (.vuint 0) "f".toList =
       .error (.invalidNumeric "f".toList "uint32".toList) ∧
     decodeField (some (.int 4294967296)) (.tuint 32) (.vuint 0) "f".toList =
       .error (.rangeExceeded "f".toList "uint".toList) ∧
     decodeField (some (.int (-1))) (.tuint 32) (.vuint 0) "f".toList =
       .error (.rangeExceeded "f".toList "uint".toList)) ∧
    -- platform uint, 64-bit
    (decodeField (some (.num "18446744073709551615".toList)) (.tuint 64) (.vuint 0) "f".toList =
       .ok (.vuint 18446744073709551615) ∧
     decodeField (some (.num "18446744073709551616".toList)) (.tuint 64) (.vuint 0) "f".toList =
       .error (.invalidNumeric "f".toList "uint64".toList) ∧
     decodeField (some (.int (-1))) (.tuint 64) (.vuint 0) "f".toList =
       .error (.rangeExceeded "f".toList "uint".toList)) := by
  refine ⟨⟨?_, ?_, ?_, ?_, ?_, ?_⟩, ⟨?_, ?_, ?_, ?_, ?_, ?_⟩, ⟨?_, ?_, ?_, ?_, ?_, ?_⟩,
    ⟨?_, ?_, ?_, ?_, ?_⟩, ⟨?_, ?_, ?_, ?_⟩, ⟨?_, ?_, ?_, ?_, ?_⟩, ⟨?_, ?_, ?_, ?_, ?_, ?_⟩,
    ⟨?_, ?_, ?_, ?_, ?_⟩, ⟨?_, ?_, ?_, ?_, ?_⟩, ⟨?_, ?_, ?_, ?_⟩, ⟨?_, ?_, ?_, ?_⟩,
    ⟨?_, ?_, ?_⟩⟩ <;>
  simp [decodeField, decodeBody, goParseInt, goParseUint, digitsToNat, isDig, natStr,
    Nat.toDigits, Nat.toDigitsCore, Nat.digitChar]

/-! ## Claim C2: the user_id / name / tags scenario -/

/-- C2, counterexample.  With `"user_id"` bound to the numeric lexeme
9223372036854775808 (one past the int64 maximum), the decode fails at
path "user_id" but with the invalid-numeric-lexeme error "value is not
a valid int64." — not the RangeExceeded ("value exceeds the range")
error the claim names. -/
theorem user_id_overflow_is_parse_error :
    Result.Decode
      [("user_id".toList, .num "9223372036854775808".toList),
       ("name".toList, .str "Ada".toList),
       ("tags".toList, .arr [.str "x".toList, .str "y".toList])]
      [("UserId".toList, ",required".toList, .ti64),
       ("Name".toList, ",required".toList, .tstring),
       ("Tags".toList, "".toList, .tslice .tstring)]
      [.vint 0, .vstr [], .vslice []] =
      .error (.invalidNumeric "user_id".toList "int64".toList) ∧
    Result.Decode
      [("user_id".toList, .num "9223372036854775808".toList),
       ("name".toList, .str "Ada".toList),
       ("tags".toList, .arr [.str "x".toList, .str "y".toList])]
      [("UserId".toList, ",required".toList, .ti64),
       ("Name".toList, ",required".toList, .tstring),
       ("Tags".toList, "".toList, .tslice .tstring)]
      [.vint 0, .vstr [], .vslice []] ≠
      .error (.rangeExceeded "user_id".toList "int64".toList) := by
  constructor <;>
  simp [Result.Decode, decodeFields, decodeField, decodeBody, decodeElems,
    resolvedName, fieldRequired, parseTag, splitComma, camelCaseToUnderScore, camelGo,
    lookupKV, reflectOf, goParseInt, digitsToNat, natStr, isDig, Except.map]

/-- C2, amended.  Decoding the object
`{"user_id": 9223372036854775807, "name": "Ada", "tags": ["x","y"]}`
(the number carried as a `json.Number` lexeme) into a struct with a
required int64 member resolving to "user_id", a required string member
resolving to "name" and a `[]string` member resolving to "tags"
succeeds and populates all three members; with `"user_id"` changed to
9223372036854775808 the decode fails at path "user_id" with the
invalid-numeric-lexeme error "value is not a valid int64." (an
out-of-range lexeme surfaces as a parse failure, not as the
range-exceeded error). -/
theorem user_id_scenario :
    Result.Decode
      [("user_id".toList, .num "9223372036854775807".toList),
       ("name".toList, .str "Ada".toList),
       ("tags".toList, .arr [.str "x".toList, .str "y".toList])]
      [("UserId".toList, ",required".toList, .ti64),
       ("Name".toList, ",required".toList, .tstring),
       ("Tags".toList, "".toList, .tslice .tstring)]
      [.vint 0, .vstr [], .vslice []] =
      .ok [.vint 9223372036854775807, .vstr "Ada".toList,
           .vslice [.vstr "x".toList, .vstr "y".toList]] ∧
    Result.Decode
      [("user_id".toList, .num "9223372036854775808".toList),
       ("name".toList, .str "Ada".toList),
       ("tags".toList, .arr [.str "x".toList, .str "y".toList])]
      [("UserId".toList, ",required".toList, .ti64),
       ("Name".toList, ",required".toList, .tstring),
       ("Tags".toList, "".toList, .tslice .tstring)]
      [.vint 0, .vstr [], .vslice []] =
      .error (.invalidNumeric "user_id".toList "int64".toList) := by
  constructor <;>
  simp [Result.Decode, decodeFields, decodeField, decodeBody, decodeElems,
    resolvedName, fieldRequired, parseTag, splitComma, camelCaseToUnderScore, camelGo,
    lookupKV, reflectOf, goParseInt, digitsToNat, natStr, isDig, Except.map]

/-! ## Claim C6: the resolver on unmatched paths -/

/-- C6.  The claim (and the source's own doc comment, "Returns nil if
field doesn't exist") promise the resolver never errors or panics and
that a present-but-null intermediate key behaves like an absent one.
The non-panicking cases do hold (first four conjuncts: missing key,
non-numeric array segment, out-of-bounds index, scalar with remaining
segments, and a null binding at the final segment all give the absent
sentinel).  But when an intermediate key is present and bound to null
with segments remaining, `getValueField` recurses into the zero
`reflect.Value` and its first statement `value.Type()` panics — the
last conjunct exhibits the panic on `{"a": {"b": null}}` at path
"a.b.c". -/
theorem resolver_null_intermediate_panics :
    Result.Get [("a".toList, .obj [("b".toList, .int 1)])] "x.b".toList = .absent ∧
    Result.Get [("a".toList, .arr [.int 1, .int 2])] "a.b".toList = .absent ∧
    Result.Get [("a".toList, .arr [.int 1, .int 2])] "a.2".toList = .absent ∧
    Result.Get [("a".toList, .int 7)] "a.b".toList = .absent ∧
    Result.Get [("a".toList, .obj [("b".toList, .null)])] "a.b".toList = .absent ∧
    Result.Get [("a".toList, .obj [("b".toList, .null)])] "a.b.c".toList = .panicked := by
  exact ⟨rfl, rfl, rfl, rfl, rfl, rfl⟩

/-! ## Claim C10: null-valued vs missing keys at the single-field interface -/

/-- Unfolding equation of `splitDot` on a cons cell. -/
theorem splitDot_cons (c : Char) (s : Str) :
    splitDot (c :: s) =
      if c = '.' then [] :: splitDot s
      else
        match splitDot s with
        | seg :: segs => (c :: seg) :: segs
        | [] => [[c]] := rfl

/-- A dot-free nonempty field splits into itself as the only segment. -/
theorem splitDot_single (k : Str) (hne : k ≠ []) (hdot : '.' ∉ k) : splitDot k = [k] := by
  induction k with
  | nil => exact absurd rfl hne
  | cons c rest ih =>
    have hc : c ≠ '.' := fun h => hdot (h ▸ List.mem_cons_self c rest)
    have hdot' : '.' ∉ rest := fun h => hdot (List.mem_cons_of_mem c h)
    cases rest with
    | nil => simp [splitDot, hc]
    | cons d rest' =>
      have h2 := ih (by simp) hdot'
      rw [splitDot_cons, if_neg hc, h2]

/-- C10.  For a dot-free field name, a key present but bound to a null
value is indistinguishable from a structurally missing key at the
single-field interface: `Result.Get` yields the nil sentinel in both
cases, and `Result.DecodeField` fails with the "field doesn't exist in
result" error in both cases. -/
theorem null_field_like_missing (res res2 : Result) (k : Str) (t : GoType) (cur : TValue)
    (hk : lookupKV res k = some .null) (hk2 : lookupKV res2 k = none)
    (hne : k ≠ []) (hdot : '.' ∉ k) :
    Result.Get res k = .absent ∧
    Result.DecodeField res k t cur = .err (.fieldNotExist k) ∧
    Result.Get res2 k = .absent ∧
    Result.DecodeField res2 k t cur = .err (.fieldNotExist k) := by
  have hsplit := splitDot_single k hne hdot
  have h1 : Result.Get res k = .absent := by
    simp [Result.Get, hne, hsplit, Result.get, hk]
  have h2 : Result.Get res2 k = .absent := by
    simp [Result.Get, hne, hsplit, Result.get, hk2]
  exact ⟨h1, by simp [Result.DecodeField, h1], h2, by simp [Result.DecodeField, h2]⟩

/-- C10, witness: the law at `{"a": null}` and `{}` for field "a". -/
theorem null_field_like_missing_witness :
    Result.Get [("a".toList, .null)] "a".toList = .absent ∧
    Result.DecodeField [("a".toList, .null)] "a".toList .ti64 (.vint 0) =
      .err (.fieldNotExist "a".toList) ∧
    Result.Get [] "a".toList = .absent ∧
    Result.DecodeField [] "a".toList .ti64 (.vint 0) = .err (.fieldNotExist "a".toList) :=
  null_field_like_missing [("a".toList, .null)] [] "a".toList .ti64 (.vint 0)
    rfl rfl (by decide) (by decide)

/-! ## Claim C4: pointer-typed (optional/reference) members -/

/-- C4, counterexample.  The claim says a structurally missing key
clears an existing pointer allocation.  In the source a missing key is
skipped with `continue` before `decodeField` is ever called, so the
pointer keeps its old allocation: decoding the empty object into a
struct whose pointer member currently holds 5 leaves it holding 5, not
nil. -/
theorem missing_key_keeps_pointer :
    Result.Decode [] [("Link".toList, [], .tptr .ti64)] [.vptr (some (.vint 5))] =
      .ok [.vptr (some (.vint 5))] ∧
    Result.Decode [] [("Link".toList, [], .tptr .ti64)] [.vptr (some (.vint 5))] ≠
      .ok [.vptr none] := by
  constructor <;>
  simp [Result.Decode, decodeFields, resolvedName, fieldRequired, parseTag,
    camelCaseToUnderScore, camelGo, lookupKV, Except.map]

/-- C4, amended.  For a pointer-typed member: a structurally missing
key never reaches the pointer logic — the member is skipped and the
existing allocation (if any) is left untouched (first conjunct); it is
a key present but bound to null (the invalid `reflect.Value`) that
clears the allocation, resetting the pointer to nil and stopping
(second and third conjuncts); and a present non-null value lazily
allocates zeroed storage when the pointer is nil, reuses the existing
pointee otherwise, and recurses into it (last two conjuncts). -/
theorem pointer_member_semantics (res : Result) (goName fbTag : Str) (e : GoType)
    (cur : TValue) (x : TValue) (v : GoVal) (pre p : Str)
    (hopt : fieldRequired fbTag = false)
    (hmiss : lookupKV res (resolvedName goName fbTag) = none)
    (res2 : Result) (hnull : lookupKV res2 (resolvedName goName fbTag) = some .null) :
    decodeFields res [(goName, fbTag, .tptr e)] [cur] pre = .ok [cur] ∧
    decodeFields res2 [(goName, fbTag, .tptr e)] [cur] pre = .ok [.vptr none] ∧
    decodeField none (.tptr e) cur p = .ok (.vptr none) ∧
    decodeField (some v) (.tptr e) (.vptr none) p =
      (decodeBody v e (zeroVal e) p).map (fun r => .vptr (some r)) ∧
    decodeField (some v) (.tptr e) (.vptr (some x)) p =
      (decodeBody v e x p).map (fun r => .vptr (some r)) := by
  refine ⟨?_, ?_, ?_, ?_, ?_⟩
  · simp [decodeFields, hmiss, hopt, Except.map]
  · simp [decodeFields, hnull, reflectOf, decodeField, Except.map]
  · simp [decodeField]
  · simp [decodeField]
  · simp [decodeField]

/-- C4, witness: the amended pointer laws at a concrete member
(`Link *int64`, key "link"), a result lacking the key, a result
binding it to null, and the value 3. -/
theorem pointer_member_semantics_witness :
    decodeFields [] [("Link".toList, [], .tptr .ti64)] [.vptr (some (.vint 5))] [] =
      .ok [.vptr (some (.vint 5))] ∧
    decodeFields [("link".toList, .null)] [("Link".toList, [], .tptr .ti64)]
      [.vptr (some (.vint 5))] [] = .ok [.vptr none] ∧
    decodeField none (.tptr .ti64) (.vptr (some (.vint 5))) "p".toList = .ok (.vptr none) ∧
    decodeField (some (.int 3)) (.tptr .ti64) (.vptr none) "p".toList =
      (decodeBody (.int 3) .ti64 (zeroVal .ti64) "p".toList).map (fun r => .vptr (some r)) ∧
    decodeField (some (.int 3)) (.tptr .ti64) (.vptr (some (.vint 5))) "p".toList =
      (decodeBody (.int 3) .ti64 (.vint 5) "p".toList).map (fun r => .vptr (some r)) :=
  pointer_member_semantics [] "Link".toList [] .ti64 (.vptr (some (.vint 5))) (.vint 5)
    (.int 3) [] "p".toList rfl rfl [("link".toList, .null)] rfl

/-! ## Claim C5: all-optional struct, empty source object -/

/-- C5.  For a struct all of whose members are optional, decoding the
empty source object succeeds and returns every member's storage
exactly as it was (the loop looks up each resolved key in the empty
map, finds none, and `continue`s without touching the member). -/
theorem empty_object_all_optional (fields : List (Str × Str × GoType)) (curs : List TValue)
    (hopt : ∀ f ∈ fields, fieldRequired f.2.1 = false)
    (hlen : curs.length = fields.length) :
    Result.Decode [] fields curs = .ok curs := by
  suffices h : ∀ pre, decodeFields [] fields curs pre = .ok curs from h []
  intro pre
  induction fields generalizing curs with
  | nil =>
    cases curs with
    | nil => simp [decodeFields]
    | cons c cs => simp at hlen
  | cons f fs ih =>
    cases curs with
    | nil => simp at hlen
    | cons cur cs =>
      obtain ⟨goName, fbTag, fty⟩ := f
      have hr : fieldRequired fbTag = false := hopt _ (List.mem_cons_self _ _)
      have ih' := ih cs (fun g hg => hopt g (List.mem_cons_of_mem _ hg))
        (by simpa using hlen)
      simp [decodeFields, lookupKV, hr, ih', Except.map]

/-- C5, witness: a two-member all-optional struct (`A int64`,
`B *string` with a tag-renamed key) decoded from the empty object
keeps its pre-call storage. -/
theorem empty_object_all_optional_witness :
    Result.Decode [] [("A".toList, [], .ti64), ("B".toList, "bee".toList, .tptr .tstring)]
      [.vint 42, .vptr (some (.vstr "x".toList))] =
      .ok [.vint 42, .vptr (some (.vstr "x".toList))] :=
  empty_object_all_optional
    [("A".toList, [], .ti64), ("B".toList, "bee".toList, .tptr .tstring)]
    [.vint 42, .vptr (some (.vstr "x".toList))]
    (by intro f hf; fin_cases hf <;> rfl) rfl

/-! ## Claim C3: required members missing from the source object -/

/-- Decomposition of the member loop over an append: the first group
of members is processed first; its error, if any, is the result. -/
theorem decodeFields_append (res : Result) (fs1 fs2 : List (Str × Str × GoType))
    (cs1 cs2 : List TValue) (pre : Str) (hlen : cs1.length = fs1.length) :
    decodeFields res (fs1 ++ fs2) (cs1 ++ cs2) pre =
      match decodeFields res fs1 cs1 pre with
      | .error e => .error e
      | .ok u => (decodeFields res fs2 cs2 pre).map (u ++ ·) := by
  induction fs1 generalizing cs1 with
  | nil =>
    cases cs1 with
    | nil => cases h : decodeFields res fs2 cs2 pre <;> simp [decodeFields, h, Except.map]
    | cons _ _ => simp at hlen
  | cons f fs ih =>
    cases cs1 with
    | nil => simp at hlen
    | cons c cs =>
      obtain ⟨gn, tag, ty⟩ := f
      have ih' := ih cs (by simpa using hlen)
      cases hl : lookupKV res (resolvedName gn tag) with
      | none =>
        cases hreq : fieldRequired tag with
        | true => simp [decodeFields, hl, hreq]
        | false =>
          simp only [List.cons_append, decodeFields, hl, hreq, ih', Bool.false_eq_true,
            if_false]
          cases h1 : decodeFields res fs cs pre <;>
            cases h2 : decodeFields res fs2 cs2 pre <;> simp [Except.map]
      | some val =>
        cases hd : decodeField (reflectOf val) ty c (pre ++ resolvedName gn tag) with
        | error e => simp [decodeFields, hl, hd]
        | ok v' =>
          simp only [List.cons_append, decodeFields, hl, hd, ih']
          cases h1 : decodeFields res fs cs pre <;>
            cases h2 : decodeFields res fs2 cs2 pre <;> simp [Except.map]

/-- C3.  If some member of the target struct is required and its
resolved key is absent from the source object, `Result.Decode` always
fails (first conjunct); and when the members declared before the first
such member all decode without error, the error is precisely the
missing-required-field error naming that member's fully-qualified path
(second conjunct; the hypothesis that the preceding group succeeds
forces the named member to be the first required-and-missing one in
declaration order). -/
theorem required_missing_fails (res : Result) (fields : List (Str × Str × GoType))
    (curs : List TValue) (pre gn tag : Str) (ty : GoType)
    (hmem : (gn, tag, ty) ∈ fields)
    (hreq : fieldRequired tag = true)
    (hmiss : lookupKV res (resolvedName gn tag) = none)
    (hlen : curs.length = fields.length) :
    (∃ e, decodeFields res fields curs pre = .error e) ∧
    (∀ fs1 fs2 cs1 cs2 u,
      fields = fs1 ++ (gn, tag, ty) :: fs2 → curs = cs1 ++ cs2 →
      cs1.length = fs1.length →
      decodeFields res fs1 cs1 pre = .ok u →
      decodeFields res fields curs pre =
        .error (.missingField (pre ++ resolvedName gn tag))) := by
  constructor
  · induction fields generalizing curs with
    | nil => simp at hmem
    | cons f fs ih =>
      cases curs with
      | nil => simp at hlen
      | cons c cs =>
        obtain ⟨gn', tag', ty'⟩ := f
        cases hl : lookupKV res (resolvedName gn' tag') with
        | none =>
          cases hreq' : fieldRequired tag' with
          | true =>
            exact ⟨.missingField (pre ++ resolvedName gn' tag'), by
              simp [decodeFields, hl, hreq']⟩
          | false =>
            have hmem' : (gn, tag, ty) ∈ fs := by
              rcases List.mem_cons.mp hmem with heq | h
              · cases heq; simp [hreq] at hreq'
              · exact h
            obtain ⟨e, he⟩ := ih cs hmem' (by simpa using hlen)
            exact ⟨e, by simp [decodeFields, hl, hreq', he, Except.map]⟩
        | some val =>
          cases hd : decodeField (reflectOf val) ty' c (pre ++ resolvedName gn' tag') with
          | error e => exact ⟨e, by simp [decodeFields, hl, hd]⟩
          | ok v' =>
            have hmem' : (gn, tag, ty) ∈ fs := by
              rcases List.mem_cons.mp hmem with heq | h
              · cases heq; simp [hmiss] at hl
              · exact h
            obtain ⟨e, he⟩ := ih cs hmem' (by simpa using hlen)
            exact ⟨e, by simp [decodeFields, hl, hd, he, Except.map]⟩
  · intro fs1 fs2 cs1 cs2 u hfields hcurs hlen1 hok
    subst hfields hcurs
    have hcs2 : ∃ c cs2', cs2 = c :: cs2' := by
      cases cs2 with
      | nil =>
        exfalso
        rw [List.length_append, List.length_append, hlen1] at hlen
        simp at hlen
      | cons c cs2' => exact ⟨c, cs2', rfl⟩
    obtain ⟨c, cs2', rfl⟩ := hcs2
    rw [decodeFields_append res fs1 _ cs1 _ pre hlen1, hok]
    simp [decodeFields, hmiss, hreq, Except.map]

/-- C3, witness: a struct `{A int64 optional; Id string required}`
decoded from `{"a": 1}`: the decode fails with the
missing-required-field error naming "id", the first (and only)
required member whose key is absent, the optional member "a" having
decoded fine before it. -/
theorem required_missing_fails_witness :
    (∃ e, decodeFields [("a".toList, .int 1)]
        [("A".toList, [], .ti64), ("Id".toList, ",required".toList, .tstring)]
        [.vint 0, .vstr []] [] = .error e) ∧
    decodeFields [("a".toList, .int 1)]
        [("A".toList, [], .ti64), ("Id".toList, ",required".toList, .tstring)]
        [.vint 0, .vstr []] [] = .error (.missingField "id".toList) := by
  have h := required_missing_fails [("a".toList, .int 1)]
    [("A".toList, [], .ti64), ("Id".toList, ",required".toList, .tstring)]
    [.vint 0, .vstr []] [] "Id".toList ",required".toList .tstring
    (by simp) rfl rfl rfl
  refine ⟨h.1, ?_⟩
  have h2 := h.2 [("A".toList, [], .ti64)] [] [.vint 0] [.vstr []] [.vint 1]
    rfl rfl rfl (by simp [decodeFields, lookupKV, resolvedName, fieldRequired, parseTag,
      camelCaseToUnderScore, camelGo, decodeField, decodeBody, reflectOf, Except.map])
  simpa [resolvedName, fieldRequired, parseTag, splitComma, camelCaseToUnderScore,
    camelGo] using h2

/-! ## Claim C9: string sources at integer targets -/

/-- C9.  For every integer target (signed and unsigned, all widths,
and the platform-width variants at any bit count), a String-kind
source is accepted only when it is the `json.Number` numeric lexeme:
an ordinary string yields the "value is string, not a number" error; a
lexeme is parsed base-10 against the target width and a parse failure
(syntax or range) yields the "value is not a valid ‹width›" error,
while a successful parse stores the parsed value. -/
theorem string_sources_at_integer_targets (s : Str) (cur : TValue) (p : Str)
    (n : Int) (m : Nat) (bits : Nat) :
    (decodeField (some (.str s)) .ti8 cur p = .error (.stringNotNumber p)) ∧
    (goParseInt s 8 = none →
      decodeField (some (.num s)) .ti8 cur p = .error (.invalidNumeric p "int8".toList)) ∧
    (goParseInt s 8 = some n → decodeField (some (.num s)) .ti8 cur p = .ok (.vint n)) ∧
    (decodeField (some (.str s)) .ti16 cur p = .error (.stringNotNumber p)) ∧
    (goParseInt s 16 = none →
      decodeField (some (.num s)) .ti16 cur p = .error (.invalidNumeric p "int16".toList)) ∧
    (goParseInt s 16 = some n → decodeField (some (.num s)) .ti16 cur p = .ok (.vint n)) ∧
    (decodeField (some (.str s)) .ti32 cur p = .error (.stringNotNumber p)) ∧
    (goParseInt s 32 = none →
      decodeField (some (.num s)) .ti32 cur p = .error (.invalidNumeric p "int32".toList)) ∧
    (goParseInt s 32 = some n → decodeField (some (.num s)) .ti32 cur p = .ok (.vint n)) ∧
    (decodeField (some (.str s)) .ti64 cur p = .error (.stringNotNumber p)) ∧
    (goParseInt s 64 = none →
      decodeField (some (.num s)) .ti64 cur p = .error (.invalidNumeric p "int64".toList)) ∧
    (goParseInt s 64 = some n → decodeField (some (.num s)) .ti64 cur p = .ok (.vint n)) ∧
    (decodeField (some (.str s)) (.tint bits) cur p = .error (.stringNotNumber p)) ∧
    (goParseInt s bits = none →
      decodeField (some (.num s)) (.tint bits) cur p =
        .error (.invalidNumeric p ("int".toList ++ natStr bits))) ∧
    (goParseInt s bits = some n →
      decodeField (some (.num s)) (.tint bits) cur p = .ok (.vint n)) ∧
    (decodeField (some (.str s)) .tu8 cur p = .error (.stringNotNumber p)) ∧
    (goParseUint s 8 = none →
      decodeField (some (.num s)) .tu8 cur p = .error (.invalidNumeric p "uint8".toList)) ∧
    (goParseUint s 8 = some m → decodeField (some (.num s)) .tu8 cur p = .ok (.vuint m)) ∧
    (decodeField (some (.str s)) .tu16 cur p = .error (.stringNotNumber p)) ∧
    (goParseUint s 16 = none →
      decodeField (some (.num s)) .tu16 cur p = .error (.invalidNumeric p "uint16".toList)) ∧
    (goParseUint s 16 = some m → decodeField (some (.num s)) .tu16 cur p = .ok (.vuint m)) ∧
    (decodeField (some (.str s)) .tu32 cur p = .error (.stringNotNumber p)) ∧
    (goParseUint s 32 = none →
      decodeField (some (.num s)) .tu32 cur p = .error (.invalidNumeric p "uint32".toList)) ∧
    (goParseUint s 32 = some m → decodeField (some (.num s)) .tu32 cur p = .ok (.vuint m)) ∧
    (decodeField (some (.str s)) .tu64 cur p = .error (.stringNotNumber p)) ∧
    (goParseUint s 64 = none →
      decodeField (some (.num s)) .tu64 cur p = .error (.invalidNumeric p "uint64".toList)) ∧
    (goParseUint s 64 = some m → decodeField (some (.num s)) .tu64 cur p = .ok (.vuint m)) ∧
    (decodeField (some (.str s)) (.tuint bits) cur p = .error (.stringNotNumber p)) ∧
    (goParseUint s bits = none →
      decodeField (some (.num s)) (.tuint bits) cur p =
        .error (.invalidNumeric p ("uint".toList ++ natStr bits))) ∧
    (goParseUint s bits = some m →
      decodeField (some (.num s)) (.tuint bits) cur p = .ok (.vuint m)) := by
  refine ⟨?_, ?_, ?_, ?_, ?_, ?_, ?_, ?_, ?_, ?_, ?_, ?_, ?_, ?_, ?_, ?_, ?_, ?_, ?_,
    ?_, ?_, ?_, ?_, ?_, ?_, ?_, ?_, ?_, ?_, ?_⟩ <;>
  first
    | (intro h; simp [decodeField, decodeBody, h])
    | simp [decodeField, decodeBody]

/-- C9, witness: at the int8 target, an ordinary string "7" is a type
mismatch; the lexeme "12a" is not a valid int8; the lexeme "-7"
decodes to −7; and at the uint8 target the lexeme "7" decodes to 7. -/
theorem string_sources_at_integer_targets_witness :
    decodeField (some (.str "7".toList)) .ti8 (.vint 0) "p".toList =
      .error (.stringNotNumber "p".toList) ∧
    decodeField (some (.num "12a".toList)) .ti8 (.vint 0) "p".toList =
      .error (.invalidNumeric "p".toList "int8".toList) ∧
    decodeField (some (.num "-7".toList)) .ti8 (.vint 0) "p".toList = .ok (.vint (-7)) ∧
    decodeField (some (.num "7".toList)) .tu8 (.vint 0) "p".toList = .ok (.vuint 7) := by
  obtain ⟨h1, -⟩ := string_sources_at_integer_targets "7".toList (.vint 0) "p".toList (-7) 7 32
  obtain ⟨-, h2, -⟩ :=
    string_sources_at_integer_targets "12a".toList (.vint 0) "p".toList (-7) 7 32
  obtain ⟨-, -, h3, -⟩ :=
    string_sources_at_integer_targets "-7".toList (.vint 0) "p".toList (-7) 7 32
  obtain ⟨-, -, -, -, -, -, -, -, -, -, -, -, -, -, -, -, -, h4, -⟩ :=
    string_sources_at_integer_targets "7".toList (.vint 0) "p".toList (-7) 7 32
  exact ⟨h1, h2 (by decide), h3 (by decide), h4 (by decide)⟩

/-! ## Claim C8: dotted path vs explicit segments -/

/-- A dot-free field splits into itself as the only segment (the empty
string included: `strings.Split("", ".")` is `[""]`). -/
theorem splitDot_dotfree (k : Str) (hdot : '.' ∉ k) : splitDot k = [k] := by
  cases k with
  | nil => rfl
  | cons c rest => exact splitDot_single (c :: rest) (by simp) hdot

/-- Splitting an append across an explicit dot: the dot-free part
becomes the first segment. -/
theorem splitDot_append_dot (s r : Str) (hdot : '.' ∉ s) :
    splitDot (s ++ '.' :: r) = s :: splitDot r := by
  induction s with
  | nil => simp [splitDot_cons]
  | cons c s' ih =>
    have hc : c ≠ '.' := fun h => hdot (h ▸ List.mem_cons_self c s')
    have ih' := ih (fun h => hdot (List.mem_cons_of_mem c h))
    rw [List.cons_append, splitDot_cons, if_neg hc, ih']

/-- `strings.Split` inverts `strings.Join` on every nonempty list of
dot-free segments. -/
theorem splitDot_joinDot (segs : List Str) (hne : segs ≠ [])
    (hdot : ∀ seg ∈ segs, '.' ∉ seg) : splitDot (joinDot segs) = segs := by
  induction segs with
  | nil => exact absurd rfl hne
  | cons s rest ih =>
    cases rest with
    | nil => exact splitDot_dotfree s (hdot s (List.mem_cons_self s []))
    | cons s2 rest' =>
      have h1 : '.' ∉ s := hdot s (List.mem_cons_self _ _)
      have ih' := ih (by simp) (fun seg hseg => hdot seg (List.mem_cons_of_mem _ hseg))
      calc splitDot (joinDot (s :: s2 :: rest'))
          = splitDot (s ++ '.' :: joinDot (s2 :: rest')) := rfl
        _ = s :: splitDot (joinDot (s2 :: rest')) := splitDot_append_dot _ _ h1
        _ = s :: s2 :: rest' := by rw [ih']

/-- C8, counterexample.  The single empty segment is a sequence of
dot-free segments on which the two syntaxes disagree: its dot-join is
the empty string, which `Get` answers with the root object, while
`GetField` looks up the empty key and yields the absent sentinel. -/
theorem dotted_vs_segments_empty_segment :
    Result.Get [("a".toList, .int 1)] (joinDot [[]]) ≠
      Result.GetField [("a".toList, .int 1)] [[]] ∧
    Result.Get [("a".toList, .int 1)] (joinDot [[]]) =
      .val (.obj [("a".toList, .int 1)]) ∧
    Result.GetField [("a".toList, .int 1)] [[]] = .absent := by
  refine ⟨?_, rfl, rfl⟩
  intro h
  rw [show Result.Get [("a".toList, .int 1)] (joinDot [[]]) =
        .val (.obj [("a".toList, .int 1)]) from rfl,
      show Result.GetField [("a".toList, .int 1)] [[]] = .absent from rfl] at h
  exact LookupRes.noConfusion h

/-- C8, amended.  For every value tree and every sequence of dot-free
path segments other than the singleton empty segment (whose dot-join
collapses to the empty path), `Result.Get` on the dot-joined string
and `Result.GetField` on the segments return identical results; the
empty dotted path and the empty segment list both return the root
unchanged. -/
theorem dotted_path_eq_segments (res : Result) (segs : List Str)
    (hdot : ∀ seg ∈ segs, '.' ∉ seg) (hne : segs ≠ [[]]) :
    Result.Get res (joinDot segs) = Result.GetField res segs ∧
    Result.Get res [] = .val (.obj res) ∧
    Result.GetField res [] = .val (.obj res) := by
  refine ⟨?_, rfl, rfl⟩
  cases segs with
  | nil => rfl
  | cons s rest =>
    have hjoin : joinDot (s :: rest) ≠ [] := by
      cases rest with
      | nil =>
        cases hs : s with
        | nil => exact absurd (by rw [hs]) hne
        | cons c s' => simp [joinDot]
      | cons s2 rest' =>
        cases s with
        | nil => simp [joinDot]
        | cons c s' => simp [joinDot]
    rw [Result.Get, if_neg hjoin,
      splitDot_joinDot (s :: rest) (by simp) hdot,
      Result.GetField, if_neg (by simp)]

/-- C8, witness: on `{"a": {"b": [10, 20]}}` the dotted path "a.b.1"
and the segments ["a","b","1"] agree (both select 20), as the amended
law states at a concrete input. -/
theorem dotted_path_eq_segments_witness :
    Result.Get [("a".toList, .obj [("b".toList, .arr [.int 10, .int 20])])]
      (joinDot ["a".toList, "b".toList, "1".toList]) =
      Result.GetField [("a".toList, .obj [("b".toList, .arr [.int 10, .int 20])])]
        ["a".toList, "b".toList, "1".toList] ∧
    Result.Get [("a".toList, .obj [("b".toList, .arr [.int 10, .int 20])])] [] =
      .val (.obj [("a".toList, .obj [("b".toList, .arr [.int 10, .int 20])])]) :=
  ⟨(dotted_path_eq_segments [("a".toList, .obj [("b".toList, .arr [.int 10, .int 20])])]
      ["a".toList, "b".toList, "1".toList] (by decide) (by decide)).1,
   (dotted_path_eq_segments [("a".toList, .obj [("b".toList, .arr [.int 10, .int 20])])]
      ["a".toList, "b".toList, "1".toList] (by decide) (by decide)).2.1⟩

/-! ## Claim C7: camelCaseToUnderScore -/

/-- `Char.ofNat` of a small scalar value keeps that value. -/
theorem toNat_ofNat_valid (n : Nat) (h : n < 55296) : (Char.ofNat n).toNat = n := by
  have hv : n.isValidChar := Or.inl h
  rw [Char.ofNat, dif_pos hv]
  simp [Char.ofNatAux, Char.toNat, UInt32.toNat, BitVec.toNat_ofNatLt]

/-- ASCII characterisation of `Char.isUpper`. -/
theorem isUpper_iff (c : Char) : c.isUpper = true ↔ 65 ≤ c.toNat ∧ c.toNat ≤ 90 := by
  simp only [Char.isUpper, Bool.and_eq_true, decide_eq_true_eq, ge_iff_le]
  constructor
  · rintro ⟨h1, h2⟩
    exact ⟨h1, h2⟩
  · rintro ⟨h1, h2⟩
    exact ⟨h1, h2⟩

/-- ASCII characterisation of `Char.isLower`. -/
theorem isLower_iff (c : Char) : c.isLower = true ↔ 97 ≤ c.toNat ∧ c.toNat ≤ 122 := by
  simp only [Char.isLower, Bool.and_eq_true, decide_eq_true_eq, ge_iff_le]
  constructor
  · rintro ⟨h1, h2⟩
    exact ⟨h1, h2⟩
  · rintro ⟨h1, h2⟩
    exact ⟨h1, h2⟩

/-- Lowering a character never produces an uppercase letter. -/
theorem toLower_not_upper (c : Char) : (c.toLower).isUpper = false := by
  rw [Bool.eq_false_iff]
  intro hup
  rw [isUpper_iff] at hup
  have hdef : c.toLower =
      if c.toNat ≥ 65 ∧ c.toNat ≤ 90 then Char.ofNat (c.toNat + 32) else c := rfl
  by_cases h : c.toNat ≥ 65 ∧ c.toNat ≤ 90
  · rw [hdef, if_pos h] at hup
    rw [toNat_ofNat_valid (c.toNat + 32) (by omega)] at hup
    omega
  · rw [hdef, if_neg h] at hup
    omega

/-- A lowercase letter is not uppercase. -/
theorem lower_not_upper (c : Char) (h : c.isLower = true) : c.isUpper = false := by
  rw [Bool.eq_false_iff]
  intro hup
  rw [isUpper_iff] at hup
  rw [isLower_iff] at h
  omega

/-- A lowercase letter is neither a space nor a hyphen nor an underscore. -/
theorem lower_not_sep (c : Char) (h : c.isLower = true) : c ≠ ' ' ∧ c ≠ '-' ∧ c ≠ '_' := by
  rw [isLower_iff] at h
  refine ⟨fun hc => ?_, fun hc => ?_, fun hc => ?_⟩ <;>
    (rw [hc] at h; revert h; decide)

/-- Every character that `camelCaseToUnderScore`'s loops emit is
non-uppercase: the emitted characters are underscores, `ToLower`
images, and characters the tests just found non-uppercase. -/
theorem camelGo_not_upper (st : CamelSt) (s : List Char) :
    ∀ c ∈ camelGo st s, c.isUpper = false := by
  induction st, s using camelGo.induct with
  | case1 prev => simp [camelGo]
  | case2 prev r0 hup =>
    intro c hc
    simp [camelGo, hup] at hc
    rcases hc with ⟨-, rfl⟩ | rfl
    · decide
    · exact toLower_not_upper r0
  | case3 prev r0 hup r0' str' hup' ih =>
    intro c hc
    simp [camelGo, hup, hup'] at hc
    rcases hc with ⟨-, rfl⟩ | rfl | hc
    · decide
    · exact toLower_not_upper r0
    · exact ih c hc
  | case4 prev r0 hup r0' str' hnup ih =>
    intro c hc
    simp [camelGo, hup, hnup] at hc
    rcases hc with ⟨-, rfl⟩ | rfl | rfl | hc
    · decide
    · exact toLower_not_upper r0
    · simpa using hnup
    · exact ih c hc
  | case5 prev r0 str hnup r0' ih =>
    intro c hc
    simp only [camelGo, if_neg hnup] at hc
    rcases List.mem_cons.mp hc with rfl | hc
    · by_cases hsep : r0 = ' ' ∨ r0 = '-'
      · simp only [if_pos hsep]
        decide
      · simp only [if_neg hsep]
        simpa using hnup
    · exact ih c hc
  | case6 r0 =>
    intro c hc
    simp [camelGo] at hc
    exact hc ▸ toLower_not_upper r0
  | case7 r0 c' str hup ih =>
    intro c hc
    simp [camelGo, hup] at hc
    rcases hc with rfl | hc
    · exact toLower_not_upper r0
    · exact ih c hc
  | case8 r0 c' str hnup hsep ih =>
    intro c hc
    simp [camelGo, hnup, hsep] at hc
    rcases hc with rfl | rfl | hc
    · exact toLower_not_upper r0
    · decide
    · exact ih c hc
  | case9 r0 c' str hnup hsep ih =>
    intro c hc
    simp [camelGo, hnup, hsep] at hc
    rcases hc with rfl | rfl | rfl | hc
    · decide
    · exact toLower_not_upper r0
    · simpa using hnup
    · cases str with
      | nil =>
        simp at hc
        exact hc ▸ toLower_not_upper c'
      | cons d str' => exact ih c (by simpa using hc)

/-- One step of the acronym loop on an uppercase rune. -/
theorem camelGo_acr_upper_step (r0 c : Char) (str : List Char) (h : c.isUpper = true) :
    camelGo (.acr r0) (c :: str) = r0.toLower :: camelGo (.acr c) str := by
  simp [camelGo, h]

/-- One step of the acronym loop on a word-starting rune (not
uppercase, not a separator) with input remaining: the loop breaks,
emitting the underscore, the folded rune and the word rune, and the
outer loop resumes. -/
theorem camelGo_acr_word_step (r0 w : Char) (rest : List Char) (hnup : w.isUpper = false)
    (hsep : ¬(w = '_' ∨ w = ' ' ∨ w = '-')) (hne : rest ≠ []) :
    camelGo (.acr r0) (w :: rest) = '_' :: r0.toLower :: w :: camelGo (.outer w) rest := by
  cases rest with
  | nil => exact absurd rfl hne
  | cons a b => simp [camelGo, hnup, hsep]

/-- On input without uppercase letters the outer loop runs alone:
every character is copied, with spaces and hyphens turned into
underscores. -/
theorem camelGo_no_upper (s : List Char) :
    ∀ prev, (∀ c ∈ s, c.isUpper = false) →
      camelGo (.outer prev) s = s.map (fun c => if c = ' ' ∨ c = '-' then '_' else c) := by
  induction s with
  | nil => intro prev _; rfl
  | cons r0 str ih =>
    intro prev hs
    have h0 : r0.isUpper = false := hs r0 (List.mem_cons_self _ _)
    have ih' := ih (if r0 = ' ' ∨ r0 = '-' then '_' else r0)
      (fun c hc => hs c (List.mem_cons_of_mem _ hc))
    simp only [camelGo, h0, Bool.false_eq_true, if_false, List.map_cons]
    rw [ih']

/-- The acronym loop on an all-uppercase remainder lowercases the
pending rune and every following one. -/
theorem camelGo_acr_all_upper (s : List Char) :
    ∀ r0, (∀ c ∈ s, c.isUpper = true) →
      camelGo (.acr r0) s = (r0 :: s).map Char.toLower := by
  induction s with
  | nil => intro r0 _; rfl
  | cons c str ih =>
    intro r0 hs
    have h0 : c.isUpper = true := hs c (List.mem_cons_self _ _)
    have ih' := ih c (fun d hd => hs d (List.mem_cons_of_mem _ hd))
    rw [camelGo_acr_upper_step r0 c str h0, ih']
    simp

/-- The acronym loop on an uppercase run followed by a lowercase word
of at least two letters: all but the last run letter are folded, an
underscore is inserted, and the word follows unchanged. -/
theorem camelGo_acr_run (us : List Char) :
    ∀ r0 w1 w2 ws', r0.isUpper = true → (∀ c ∈ us, c.isUpper = true) →
      (∀ c ∈ w1 :: w2 :: ws', c.isLower = true) →
      camelGo (.acr r0) (us ++ w1 :: w2 :: ws') =
        ((r0 :: us).dropLast.map Char.toLower) ++
          '_' :: ((r0 :: us).getLast (List.cons_ne_nil r0 us)).toLower :: w1 :: w2 :: ws' := by
  induction us with
  | nil =>
    intro r0 w1 w2 ws' hr0 _ hws
    have hw1 : w1.isLower = true := hws w1 (List.mem_cons_self _ _)
    have hnup : w1.isUpper = false := lower_not_upper w1 hw1
    obtain ⟨hsp, hhy, hun⟩ := lower_not_sep w1 hw1
    have hlow : ∀ c ∈ w2 :: ws', c.isLower = true :=
      fun c hc => hws c (List.mem_cons_of_mem _ hc)
    have hmap := camelGo_no_upper (w2 :: ws') w1
      (fun c hc => lower_not_upper c (hlow c hc))
    have hid : (w2 :: ws').map (fun c => if c = ' ' ∨ c = '-' then '_' else c) = w2 :: ws' := by
      apply List.map_congr_left ?_ |>.trans (List.map_id _)
      intro c hc
      obtain ⟨h1, h2, -⟩ := lower_not_sep c (hlow c hc)
      simp [h1, h2]
    rw [List.nil_append,
      camelGo_acr_word_step r0 w1 (w2 :: ws') hnup (by simp [hun, hsp, hhy]) (by simp),
      hmap, hid]
    simp
  | cons u us' ih =>
    intro r0 w1 w2 ws' hr0 hus hws
    have hu : u.isUpper = true := hus u (List.mem_cons_self _ _)
    have ih' := ih u w1 w2 ws' hu (fun c hc => hus c (List.mem_cons_of_mem _ hc)) hws
    rw [List.cons_append, camelGo_acr_upper_step r0 u _ hu, ih']
    simp [List.getLast_cons]

/-- One step of the outer loop on two leading uppercase runes. -/
theorem camelGo_outer_upper2_step (prev r0 r0' : Char) (str : List Char)
    (h : r0.isUpper = true) (h' : r0'.isUpper = true) :
    camelGo (.outer prev) (r0 :: r0' :: str) =
      (if prev ≠ '_' then ['_'] else []) ++ r0.toLower :: camelGo (.acr r0') str := by
  simp [camelGo, h, h']

/-- C7, counterexample.  The claim says internal space and hyphen
characters become underscore separators.  But immediately after a
single uppercase letter the source writes the next rune raw before any
separator conversion, so "A b" derives to "a b" (space preserved), not
"a_b". -/
theorem camel_space_after_upper_kept :
    camelCaseToUnderScore "A b".toList = "a b".toList ∧
    camelCaseToUnderScore "A b".toList ≠ "a_b".toList := by decide

/-- C7, amended.  `camelCaseToUnderScore` maps "HTTPServer" to
"http_server"; an identifier with no case transitions maps to itself
lowercased (all-lowercase input is returned unchanged, all-uppercase
input is lowercased wholesale); on input without uppercase letters
every internal space and hyphen becomes an underscore — but a space or
hyphen read immediately after a single uppercase letter is copied
verbatim (see the counterexample), so the separator conversion holds
only away from that position; an uppercase acronym run followed by a
lowercase word of at least two letters folds all but the run's last
letter, inserts one underscore, and keeps the word (a one-letter word
instead duplicates that letter, e.g. "ABc" → "a_bcc"); and no
character of the output is an uppercase letter. -/
theorem camel_derivation_laws :
    camelCaseToUnderScore "HTTPServer".toList = "http_server".toList ∧
    (∀ s : Str, (∀ c ∈ s, c.isLower = true) → camelCaseToUnderScore s = s) ∧
    (∀ s : Str, (∀ c ∈ s, c.isUpper = true) →
      camelCaseToUnderScore s = s.map Char.toLower) ∧
    (∀ s : Str, (∀ c ∈ s, c.isUpper = false) →
      camelCaseToUnderScore s = s.map (fun c => if c = ' ' ∨ c = '-' then '_' else c)) ∧
    (∀ (u1 u2 : Char) (us : List Char) (w1 w2 : Char) (ws : List Char),
      u1.isUpper = true → u2.isUpper = true → (∀ c ∈ us, c.isUpper = true) →
      (∀ c ∈ w1 :: w2 :: ws, c.isLower = true) →
      camelCaseToUnderScore ((u1 :: u2 :: us) ++ w1 :: w2 :: ws) =
        ((u1 :: u2 :: us).dropLast.map Char.toLower) ++
          '_' :: ((u1 :: u2 :: us).getLast (List.cons_ne_nil u1 _)).toLower
            :: w1 :: w2 :: ws) ∧
    camelCaseToUnderScore "ABc".toList = "a_bcc".toList ∧
    camelCaseToUnderScore "A-b".toList = "a-b".toList ∧
    (∀ s : Str, ∀ c ∈ camelCaseToUnderScore s, c.isUpper = false) := by
  have part4 : ∀ s : Str, (∀ c ∈ s, c.isUpper = false) →
      camelCaseToUnderScore s = s.map (fun c => if c = ' ' ∨ c = '-' then '_' else c) :=
    fun s hs => camelGo_no_upper s '_' hs
  refine ⟨rfl, ?_, ?_, part4, ?_, by decide, by decide,
    fun s => camelGo_not_upper (.outer '_') s⟩
  · intro s hs
    rw [part4 s (fun c hc => lower_not_upper c (hs c hc))]
    apply List.map_congr_left ?_ |>.trans (List.map_id _)
    intro c hc
    obtain ⟨h1, h2, -⟩ := lower_not_sep c (hs c hc)
    simp [h1, h2]
  · intro s hs
    cases s with
    | nil => rfl
    | cons u us =>
      have hu : u.isUpper = true := hs u (List.mem_cons_self _ _)
      cases us with
      | nil => simp [camelCaseToUnderScore, camelGo, hu]
      | cons u' us' =>
        have hu' : u'.isUpper = true := hs u' (List.mem_cons_of_mem _ (List.mem_cons_self _ _))
        rw [camelCaseToUnderScore, camelGo_outer_upper2_step '_' u u' us' hu hu',
          camelGo_acr_all_upper us' u'
            (fun c hc => hs c (List.mem_cons_of_mem _ (List.mem_cons_of_mem _ hc)))]
        simp
  · intro u1 u2 us w1 w2 ws hu1 hu2 hus hws
    rw [show (u1 :: u2 :: us) ++ w1 :: w2 :: ws = u1 :: u2 :: (us ++ w1 :: w2 :: ws) from rfl,
      camelCaseToUnderScore, camelGo_outer_upper2_step '_' u1 u2 _ hu1 hu2,
      camelGo_acr_run us u2 w1 w2 ws hu2 hus hws]
    simp [List.getLast_cons]

/-- C7, witness: the amended laws at concrete inputs — "HTTPServer",
the no-case-transition identifiers "abc" and "HTTP", the
separator-conversion input "a-b c", the acronym law instantiated at
"HTTPS" + "erver", and a sample output character's case. -/
theorem camel_derivation_laws_witness :
    camelCaseToUnderScore "HTTPServer".toList = "http_server".toList ∧
    camelCaseToUnderScore "abc".toList = "abc".toList ∧
    camelCaseToUnderScore "HTTP".toList = "HTTP".toList.map Char.toLower ∧
    camelCaseToUnderScore "a-b c".toList =
      "a-b c".toList.map (fun c => if c = ' ' ∨ c = '-' then '_' else c) ∧
    camelCaseToUnderScore ('H' :: 'T' :: "TPS".toList ++ 'e' :: 'r' :: "ver".toList) =
      (('H' :: 'T' :: "TPS".toList).dropLast.map Char.toLower) ++
        '_' :: (('H' :: 'T' :: "TPS".toList).getLast (List.cons_ne_nil 'H' _)).toLower
          :: 'e' :: 'r' :: "ver".toList ∧
    ('a' : Char).isUpper = false := by
  obtain ⟨h1, h2, h3, h4, h5, h6a, h6b, h7⟩ := camel_derivation_laws
  exact ⟨h1, h2 "abc".toList (by decide), h3 "HTTP".toList (by decide),
    h4 "a-b c".toList (by decide),
    h5 'H' 'T' "TPS".toList 'e' 'r' "ver".toList (by decide) (by decide) (by decide)
      (by decide),
    h7 "Ab".toList 'a' (by decide)⟩
